import Mathlib

/-!
# simple-url-shortener: the two request handlers over a model of the store

The repository holds two HTTP services that share one Redis instance:

* `shorten/main.go`, handler `shortenURL` (lines 108-129): reads the form
  field `url`, draws a random UUID, builds the short link and issues one
  `SET code url EX 24h`;
* `unshorten/main.go`, handler `redirectToURL` (lines 76-95): reads the path
  parameter `id`, issues one `GET id` and redirects, or reports
  not-found / a server error.

The handlers are embedded as pure functions.  Everything a handler reads from
outside (process environment, random bytes, the clock seen by the store, the
state of the connection to the store) is an explicit argument; everything it
does to the outside (the response written, the commands sent to the store, the
lines logged, the new content of the store) is part of the returned value.
-/

namespace UrlShortener

/-! ## Time (Go `time.Duration`, a count of nanoseconds) -/

/-- Go `time.Second`, in nanoseconds. -/
def Second : Nat := 1000000000

/-- Go `time.Minute`. -/
def Minute : Nat := 60 * Second

/-- Go `time.Hour`. -/
def Hour : Nat := 60 * Minute

/-! ## HTTP status codes used by the handlers (`net/http`) -/

/-- Go `http.StatusOK`. -/
def StatusOK : Nat := 200

/-- Go `http.StatusFound`. -/
def StatusFound : Nat := 302

/-- Go `http.StatusBadRequest`. -/
def StatusBadRequest : Nat := 400

/-- Go `http.StatusNotFound`. -/
def StatusNotFound : Nat := 404

/-- Go `http.StatusInternalServerError`. -/
def StatusInternalServerError : Nat := 500

/-! ## The key-value store -/

/-- One stored mapping: the value and the instant (nanoseconds on the store's
clock) at which the store stops serving it. -/
structure Entry where
  value : String
  expiresAt : Nat
  deriving DecidableEq, Repr

/-- Content of the store: a flat association list from key to entry.  An entry
whose deadline has passed stays in the list but is no longer served. -/
abbrev Store := List (String × Entry)

namespace Store

/-- The raw entry recorded under `k`, expired or not (first match). -/
def lookup : Store → String → Option Entry
  | [], _ => none
  | (k', e) :: s, k => if k' = k then some e else lookup s k

/-- Remove every entry recorded under `k`. -/
def erase : Store → String → Store
  | [], _ => []
  | (k', e) :: s, k => if k' = k then erase s k else (k', e) :: erase s k

/-- The keys recorded in the store, in order. -/
def keys (s : Store) : List String := s.map Prod.fst

/-- What `GET k` answers at instant `now`: the value when `k` is recorded and
its deadline has not passed, nothing otherwise. -/
def get (s : Store) (now : Nat) (k : String) : Option String :=
  match s.lookup k with
  | some e => if now < e.expiresAt then some e.value else none
  | none => none

/-- Effect of `SET k v` with expiry `ttl` at instant `now`: whatever was under
`k` is replaced by `v`, which is served until `now + ttl`. -/
def set (s : Store) (now : Nat) (k v : String) (ttl : Nat) : Store :=
  (k, { value := v, expiresAt := now + ttl }) :: s.erase k

end Store

/-! ## The store client (`redisClient`) -/

/-- A command sent to the store by a handler. -/
inductive Cmd where
  | set (key value : String) (ttl : Nat)
  | get (key : String)
  deriving DecidableEq, Repr

/-- The error half of a client call: `redis.Nil` (the store answered that the
key does not exist) or any other error, with its text. -/
inductive RedisError where
  | Nil
  | other (msg : String)
  deriving DecidableEq, Repr

/-- State of the connection during one client call.  The client is built by
`redis.NewClient` from the options of `redis.ParseURL(REDIS_URI)` and nothing
in the repository turns its retries off: after a failed attempt the client
library sends the same command again, `resent` times in all, before it hands
the error to the caller (go-redis: up to `MaxRetries` times after a
communication error, 3 unless the connection string says otherwise, and not
at all for an error it does not retry). -/
inductive Link where
  /-- the command reaches the store and its reply reaches the client -/
  | up
  /-- no attempt reaches the store; after `resent` further attempts the client
  returns an error -/
  | dropRequest (err : String) (resent : Nat)
  /-- every attempt reaches the store and is executed, but its reply is lost;
  after `resent` further attempts the client returns an error -/
  | dropReply (err : String) (resent : Nat)
  deriving DecidableEq, Repr

/-- How many times the client library sends the command again during one
client call. -/
def Link.resent : Link → Nat
  | .up => 0
  | .dropRequest _ n => n
  | .dropReply _ n => n

/-- Everything outside the handler that a request can change: the content of
the store, the commands the client tried to send to it so far (one entry per
attempt, oldest first) and the lines logged so far (message, error text). -/
structure World where
  store : Store
  ops : List Cmd
  logs : List (String × String)
  deriving DecidableEq, Repr

/-- Text of a client error as it is handed to the logger. -/
def RedisError.text : RedisError → String
  | .Nil => "redis: nil"
  | .other msg => msg

/-- The store after the same `SET` has been executed `n` times at instant
`now`. -/
def Store.setTimes (s : Store) (now : Nat) (k v : String) (ttl : Nat) : Nat → Store
  | 0 => s
  | n + 1 => (Store.setTimes s now k v ttl n).set now k v ttl

/-- Client call `redisClient.Set(ctx, key, value, ttl).Result()`: the `SET` is
sent once when the connection is up, and once more for every attempt the
client library repeats when it is not; the result is the reply `OK` or the
error of the last attempt. -/
def redisSet (w : World) (now : Nat) (link : Link) (key value : String) (ttl : Nat) :
    World × Except RedisError String :=
  match link with
  | .up =>
    ({ w with ops := w.ops ++ [Cmd.set key value ttl],
              store := w.store.set now key value ttl }, .ok "OK")
  | .dropRequest err resent =>
    ({ w with ops := w.ops ++ List.replicate (resent + 1) (Cmd.set key value ttl) },
      .error (.other err))
  | .dropReply err resent =>
    ({ w with ops := w.ops ++ List.replicate (resent + 1) (Cmd.set key value ttl),
              store := w.store.setTimes now key value ttl (resent + 1) },
      .error (.other err))

/-- Client call `redisClient.Get(ctx, key).Result()`: the `GET` is sent once
when the connection is up, and once more for every attempt the client library
repeats when it is not; the result is the stored value, `redis.Nil` when the
store has no such key, or the error of the last attempt when the store could
not be asked. -/
def redisGet (w : World) (now : Nat) (link : Link) (key : String) :
    World × Except RedisError String :=
  match link with
  | .up =>
    match w.store.get now key with
    | some v => ({ w with ops := w.ops ++ [Cmd.get key] }, .ok v)
    | none => ({ w with ops := w.ops ++ [Cmd.get key] }, .error .Nil)
  | .dropRequest err resent =>
    ({ w with ops := w.ops ++ List.replicate (resent + 1) (Cmd.get key) },
      .error (.other err))
  | .dropReply err resent =>
    ({ w with ops := w.ops ++ List.replicate (resent + 1) (Cmd.get key) },
      .error (.other err))

/-- Logger call `logger.Err(err).Msg(msg)`: one line is appended. -/
def logErr (w : World) (err : RedisError) (msg : String) : World :=
  { w with logs := w.logs ++ [(msg, err.text)] }

/-! ## Process environment (`os.Getenv`) -/

/-- The process environment: variable name, value. -/
abbrev Env := List (String × String)

/-- Go `os.Getenv`: the value of the variable, the empty string when unset. -/
def Getenv : Env → String → String
  | [], _ => ""
  | (k, v) :: env, key => if k = key then v else Getenv env key

/-! ## Random codes (`uuid.New().String()`) -/

/-- Bytes of `uuid.New()`: sixteen bytes of the random source (here the
base-256 digits of `rnd`, most significant first), with byte 6 forced to
version 4 and byte 8 to the RFC 4122 variant. -/
def uuidNew (rnd : Nat) : List Nat :=
  (List.range 16).map fun i =>
    let b := (rnd / 256 ^ (15 - i)) % 256
    if i = 6 then (b &&& 0x0f) ||| 0x40
    else if i = 8 then (b &&& 0x3f) ||| 0x80
    else b

/-- One digit of the lower-case table of `encoding/hex`. -/
def hexDigit (n : Nat) : Char :=
  "0123456789abcdef".data.getD n '0'

/-- Go `hex.Encode`: two lower-case digits per byte. -/
def hexEncode : List Nat → List Char
  | [] => []
  | b :: bs => hexDigit (b >>> 4) :: hexDigit (b &&& 0x0f) :: hexEncode bs

/-- Go `UUID.String`: the form xxxxxxxx-xxxx-xxxx-xxxx-xxxxxxxxxxxx. -/
def uuidString (u : List Nat) : String :=
  String.mk
    (hexEncode (u.take 4) ++ '-' :: hexEncode ((u.drop 4).take 2)
      ++ '-' :: hexEncode ((u.drop 6).take 2)
      ++ '-' :: hexEncode ((u.drop 8).take 2)
      ++ '-' :: hexEncode (u.drop 10))

/-! ## Requests and responses (`echo.Context`) -/

/-- The parts of an incoming request the handlers read: the `Host` of the
request, the form values and the path parameters. -/
structure Context where
  host : String
  form : List (String × String)
  params : List (String × String)
  deriving DecidableEq, Repr

/-- First value recorded under `name`, the empty string when there is none. -/
def firstValue : List (String × String) → String → String
  | [], _ => ""
  | (k, v) :: rest, name => if k = name then v else firstValue rest name

/-- Echo `c.FormValue(name)`: the first value of the form field, the empty
string when the field is absent. -/
def Context.FormValue (c : Context) (name : String) : String :=
  firstValue c.form name

/-- Echo `c.Param(name)`: the value of the path parameter, the empty string
when there is none. -/
def Context.Param (c : Context) (name : String) : String :=
  firstValue c.params name

/-- The response written by a handler: status, text body, and the `Location`
header when one is set. -/
structure Response where
  status : Nat
  body : String
  location : Option String
  deriving DecidableEq, Repr

/-- Echo `c.String(code, s)`: a text response. -/
def cString (code : Nat) (s : String) : Response :=
  { status := code, body := s, location := none }

/-- Echo `c.Redirect(code, url)`: `Location` is set to `url`, no body. -/
def cRedirect (code : Nat) (url : String) : Response :=
  { status := code, body := "", location := some url }

/-! ## The handlers -/

/-- Handler of `POST /shorten` (`shorten/main.go`, `shortenURL`). -/
def shortenURL (env : Env) (rnd : Nat) (now : Nat) (link : Link) (c : Context) (w : World) :
    Response × World :=
  let url := c.FormValue "url"
  if url = "" then
    (cString StatusBadRequest "url cannot be empty", w)
  else
    let short := uuidString (uuidNew rnd)
    let shortenUrl := "https://" ++ c.host ++ "/s/" ++ short
    let shortenUrl :=
      if Getenv env "DEV_FLAG" = "1" then "http://" ++ c.host ++ "/s/" ++ short
      else shortenUrl
    match redisSet w now link short url (24 * Hour) with
    | (w', .error err) =>
      (cString StatusInternalServerError "failed to set shortened url",
        logErr w' err "failed to set shortened url")
    | (w', .ok _) => (cString StatusOK shortenUrl, w')

/-- Handler of `GET /s/:id` (`unshorten/main.go`, `redirectToURL`). -/
def redirectToURL (now : Nat) (link : Link) (c : Context) (w : World) : Response × World :=
  let shortURL := c.Param "id"
  if shortURL = "" then
    (cString StatusBadRequest "short url cannot be empty", w)
  else
    match redisGet w now link shortURL with
    | (w', .error err) =>
      if err = RedisError.Nil then
        (cString StatusNotFound "url not found", w')
      else
        (cString StatusInternalServerError "failed to retrieve url",
          logErr w' err "failed to get shortened url")
    | (w', .ok url) => (cRedirect StatusFound url, w')

/-! ## Sequences of requests -/

/-- One request served by either service, with what the outside world decides
for it: the instant, the state of the connection, and for `POST /shorten` the
environment and the random bytes. -/
inductive Request where
  | shorten (env : Env) (rnd : Nat) (now : Nat) (link : Link) (c : Context)
  | redirect (now : Nat) (link : Link) (c : Context)
  deriving DecidableEq, Repr

/-- The instant at which a request is served. -/
def Request.time : Request → Nat
  | .shorten _ _ now _ _ => now
  | .redirect now _ _ => now

/-- Serve one request. -/
def serve (w : World) : Request → Response × World
  | .shorten env rnd now link c => shortenURL env rnd now link c w
  | .redirect now link c => redirectToURL now link c w

/-- Serve a sequence of requests in order; the final world. -/
def run (w : World) : List Request → World
  | [] => w
  | r :: rs => run (serve w r).2 rs

/-- Serve a sequence of requests in order; the responses. -/
def responses (w : World) : List Request → List Response
  | [] => []
  | r :: rs => (serve w r).1 :: responses (serve w r).2 rs

/-- The code drawn by a request does not collide: a `POST /shorten` that gets
past its input check draws a code that the store does not serve at that
instant.  Nothing to check for the other requests. -/
def Request.fresh (w : World) : Request → Bool
  | .shorten _ rnd now _ c =>
    decide (c.FormValue "url" = "") || (w.store.get now (uuidString (uuidNew rnd))).isNone
  | .redirect _ _ _ => true

/-- Every request of the sequence is `fresh` in the world it is served in. -/
def freshCodes (w : World) : List Request → Bool
  | [] => true
  | r :: rs => r.fresh w && freshCodes (serve w r).2 rs

/-! ## Sample inputs -/

/-- A `POST /shorten` for `https://example.com` sent to host `sho.rt`. -/
def samplePost : Context :=
  { host := "sho.rt", form := [("url", "https://example.com")], params := [] }

/-- A `POST /shorten` whose form has no `url` field. -/
def sampleEmptyPost : Context :=
  { host := "sho.rt", form := [], params := [] }

/-- A `GET /s/:id` for the given code. -/
def sampleGet (code : String) : Context :=
  { host := "sho.rt", form := [], params := [("id", code)] }

/-- A world with nothing stored, sent or logged. -/
def emptyWorld : World := { store := [], ops := [], logs := [] }

/-- A world whose store already serves, until instant 100, a mapping under the
code that the random value 0 renders to. -/
def collidingWorld : World :=
  { store := [("00000000-0000-4000-8000-000000000000",
      { value := "https://old.example", expiresAt := 100 })],
    ops := [], logs := [] }

/-- Two requests served while the mapping of `collidingWorld` is live: a
resolution of its code, then a `POST /shorten` that draws another code. -/
def sampleRequests : List Request :=
  [Request.redirect 6 Link.up (sampleGet "00000000-0000-4000-8000-000000000000"),
   Request.shorten [] 1 7 Link.up samplePost]

/-! ## Lemmas on the store -/

theorem Store.lookup_cons (k0 : String) (e : Entry) (s : Store) (k : String) :
    Store.lookup ((k0, e) :: s) k = if k0 = k then some e else Store.lookup s k := rfl

theorem Store.erase_cons (k0 : String) (e : Entry) (s : Store) (k : String) :
    Store.erase ((k0, e) :: s) k
      = if k0 = k then Store.erase s k else (k0, e) :: Store.erase s k := rfl

theorem Store.keys_cons (k0 : String) (e : Entry) (s : Store) :
    Store.keys ((k0, e) :: s) = k0 :: Store.keys s := rfl

theorem Store.lookup_erase_self (s : Store) (k : String) :
    Store.lookup (Store.erase s k) k = none := by
  induction s with
  | nil => rfl
  | cons p s ih =>
    obtain ⟨k0, e⟩ := p
    rw [Store.erase_cons]
    by_cases h : k0 = k
    · rw [if_pos h]
      exact ih
    · rw [if_neg h, Store.lookup_cons, if_neg h]
      exact ih

theorem Store.lookup_erase_ne (s : Store) {k k' : String} (h : k' ≠ k) :
    Store.lookup (Store.erase s k) k' = Store.lookup s k' := by
  induction s with
  | nil => rfl
  | cons p s ih =>
    obtain ⟨k0, e⟩ := p
    rw [Store.erase_cons, Store.lookup_cons]
    by_cases h0 : k0 = k
    · have h1 : k0 ≠ k' := fun h2 => h (h2.symm.trans h0)
      rw [if_pos h0, if_neg h1]
      exact ih
    · rw [if_neg h0, Store.lookup_cons, ih]

theorem Store.lookup_set_self (s : Store) (now : Nat) (k v : String) (ttl : Nat) :
    Store.lookup (Store.set s now k v ttl) k = some { value := v, expiresAt := now + ttl } := by
  unfold Store.set
  rw [Store.lookup_cons, if_pos rfl]

theorem Store.lookup_set_ne (s : Store) (now : Nat) (v : String) (ttl : Nat) {k k' : String}
    (h : k' ≠ k) : Store.lookup (Store.set s now k v ttl) k' = Store.lookup s k' := by
  have h1 : k ≠ k' := fun h2 => h h2.symm
  unfold Store.set
  rw [Store.lookup_cons, if_neg h1, Store.lookup_erase_ne s h]

theorem Store.mem_keys_erase (s : Store) (k k' : String)
    (h : k' ∈ Store.keys (Store.erase s k)) : k' ∈ Store.keys s ∧ k' ≠ k := by
  induction s with
  | nil => simp [Store.erase, Store.keys] at h
  | cons p s ih =>
    obtain ⟨k0, e⟩ := p
    rw [Store.erase_cons] at h
    rw [Store.keys_cons]
    by_cases h0 : k0 = k
    · rw [if_pos h0] at h
      exact ⟨List.mem_cons_of_mem _ (ih h).1, (ih h).2⟩
    · rw [if_neg h0, Store.keys_cons] at h
      rcases List.mem_cons.mp h with h | h
      · subst h
        exact ⟨List.mem_cons_self _ _, h0⟩
      · exact ⟨List.mem_cons_of_mem _ (ih h).1, (ih h).2⟩

theorem Store.nodup_keys_erase (s : Store) (k : String) (h : (Store.keys s).Nodup) :
    (Store.keys (Store.erase s k)).Nodup := by
  induction s with
  | nil => exact h
  | cons p s ih =>
    obtain ⟨k0, e⟩ := p
    rw [Store.keys_cons, List.nodup_cons] at h
    rw [Store.erase_cons]
    by_cases h0 : k0 = k
    · rw [if_pos h0]
      exact ih h.2
    · rw [if_neg h0, Store.keys_cons, List.nodup_cons]
      exact ⟨fun hm => h.1 (Store.mem_keys_erase s k k0 hm).1, ih h.2⟩

theorem Store.nodup_keys_set (s : Store) (now : Nat) (k v : String) (ttl : Nat)
    (h : (Store.keys s).Nodup) : (Store.keys (Store.set s now k v ttl)).Nodup := by
  unfold Store.set
  rw [Store.keys_cons, List.nodup_cons]
  exact ⟨fun hm => (Store.mem_keys_erase s k k hm).2 rfl, Store.nodup_keys_erase s k h⟩

theorem Store.erase_erase (s : Store) (k : String) :
    Store.erase (Store.erase s k) k = Store.erase s k := by
  induction s with
  | nil => rfl
  | cons p s ih =>
    obtain ⟨k0, e⟩ := p
    rw [Store.erase_cons]
    by_cases h : k0 = k
    · rw [if_pos h]
      exact ih
    · rw [if_neg h, Store.erase_cons, if_neg h, ih]

theorem Store.set_set (s : Store) (now : Nat) (k v : String) (ttl : Nat) :
    Store.set (Store.set s now k v ttl) now k v ttl = Store.set s now k v ttl := by
  unfold Store.set
  rw [Store.erase_cons, if_pos rfl, Store.erase_erase]

/-- Executing the same `SET` again at the same instant changes nothing more. -/
theorem Store.setTimes_succ (s : Store) (now : Nat) (k v : String) (ttl : Nat) (n : Nat) :
    Store.setTimes s now k v ttl (n + 1) = Store.set s now k v ttl := by
  induction n with
  | zero => rfl
  | succ n ih =>
    show Store.set (Store.setTimes s now k v ttl (n + 1)) now k v ttl = _
    rw [ih, Store.set_set]

theorem Store.get_of_lookup {s : Store} {k : String} {e : Entry} (now : Nat)
    (h : Store.lookup s k = some e) :
    Store.get s now k = if now < e.expiresAt then some e.value else none := by
  unfold Store.get
  rw [h]

theorem Store.get_of_lookup_none {s : Store} {k : String} (now : Nat)
    (h : Store.lookup s k = none) : Store.get s now k = none := by
  unfold Store.get
  rw [h]

/-! ## Lemmas on the generated code -/

theorem hexEncode_length (l : List Nat) : (hexEncode l).length = 2 * l.length := by
  induction l with
  | nil => rfl
  | cons b bs ih =>
    simp only [hexEncode, List.length_cons, ih]
    omega

theorem uuidNew_length (rnd : Nat) : (uuidNew rnd).length = 16 := by
  simp [uuidNew]

theorem uuidString_length (rnd : Nat) : (uuidString (uuidNew rnd)).length = 36 := by
  simp [uuidString, String.length, hexEncode_length, uuidNew_length]

theorem uuidString_ne_empty (rnd : Nat) : uuidString (uuidNew rnd) ≠ "" := by
  intro h
  have h1 := uuidString_length rnd
  rw [h] at h1
  exact absurd h1 (by decide)

theorem hexDigit_mem (n : Nat) : hexDigit n ∈ "0123456789abcdef".data := by
  unfold hexDigit
  by_cases h : n < 16
  · interval_cases n <;> decide
  · rw [List.getD_eq_default _ _ (by simpa using Nat.not_lt.mp h)]
    decide

theorem hexEncode_chars (l : List Nat) (ch : Char) (h : ch ∈ hexEncode l) :
    ch ∈ "0123456789abcdef-".data := by
  have hsub : ∀ x, x ∈ "0123456789abcdef".data → x ∈ "0123456789abcdef-".data := by
    intro x hx
    have : "0123456789abcdef-".data = "0123456789abcdef".data ++ ['-'] := rfl
    rw [this]
    exact List.mem_append_left _ hx
  induction l with
  | nil => simp [hexEncode] at h
  | cons b bs ih =>
    simp only [hexEncode, List.mem_cons] at h
    rcases h with h | h | h
    · rw [h]
      exact hsub _ (hexDigit_mem _)
    · rw [h]
      exact hsub _ (hexDigit_mem _)
    · exact ih h

theorem uuidString_chars (u : List Nat) (ch : Char) (h : ch ∈ (uuidString u).data) :
    ch ∈ "0123456789abcdef-".data := by
  have hd : '-' ∈ "0123456789abcdef-".data := by decide
  simp only [uuidString, List.mem_append, List.mem_cons] at h
  casesm* _ ∨ _
  all_goals first
    | exact hexEncode_chars _ _ (by assumption)
    | (subst ch; exact hd)

/-! ## Lemmas on the handlers -/

/-- The link built by `shortenURL`, as the source builds it. -/
theorem shortenURL_up (env : Env) (rnd now : Nat) (c : Context) (w : World)
    (h : c.FormValue "url" ≠ "") :
    shortenURL env rnd now Link.up c w
      = (cString StatusOK
          (if Getenv env "DEV_FLAG" = "1"
            then "http://" ++ c.host ++ "/s/" ++ uuidString (uuidNew rnd)
            else "https://" ++ c.host ++ "/s/" ++ uuidString (uuidNew rnd)),
         { store := Store.set w.store now (uuidString (uuidNew rnd)) (c.FormValue "url")
                      (24 * Hour),
           ops := w.ops ++ [Cmd.set (uuidString (uuidNew rnd)) (c.FormValue "url") (24 * Hour)],
           logs := w.logs }) := by
  simp [shortenURL, h, redisSet]

theorem shortenURL_down (env : Env) (rnd now : Nat) (link : Link) (c : Context) (w : World)
    (h : c.FormValue "url" ≠ "") (hl : link ≠ Link.up) :
    (shortenURL env rnd now link c w).1
        = cString StatusInternalServerError "failed to set shortened url"
      ∧ (shortenURL env rnd now link c w).2.ops
        = w.ops ++ List.replicate (link.resent + 1)
            (Cmd.set (uuidString (uuidNew rnd)) (c.FormValue "url") (24 * Hour)) := by
  cases link with
  | up => exact absurd rfl hl
  | dropRequest err n => simp [shortenURL, h, redisSet, logErr, Link.resent]
  | dropReply err n => simp [shortenURL, h, redisSet, logErr, Link.resent]

/-- When the `SET` fails, the world after `shortenURL` is the world after that
one client call plus one log line. -/
theorem shortenURL_failed (env : Env) (rnd now : Nat) (link : Link) (c : Context) (w : World)
    (e : RedisError) (h : c.FormValue "url" ≠ "")
    (he : (redisSet w now link (uuidString (uuidNew rnd)) (c.FormValue "url") (24 * Hour)).2
      = Except.error e) :
    (shortenURL env rnd now link c w).2
      = logErr (redisSet w now link (uuidString (uuidNew rnd)) (c.FormValue "url")
          (24 * Hour)).1 e "failed to set shortened url" := by
  cases link with
  | up => simp [redisSet] at he
  | dropRequest err n =>
    simp only [redisSet, Except.error.injEq] at he
    subst he
    simp [shortenURL, h, redisSet]
  | dropReply err n =>
    simp only [redisSet, Except.error.injEq] at he
    subst he
    simp [shortenURL, h, redisSet]

theorem shortenURL_empty (env : Env) (rnd now : Nat) (link : Link) (c : Context) (w : World)
    (h : c.FormValue "url" = "") :
    shortenURL env rnd now link c w = (cString StatusBadRequest "url cannot be empty", w) := by
  simp [shortenURL, h]

theorem redirectToURL_empty (now : Nat) (link : Link) (c : Context) (w : World)
    (h : c.Param "id" = "") :
    redirectToURL now link c w = (cString StatusBadRequest "short url cannot be empty", w) := by
  simp [redirectToURL, h]

theorem redirectToURL_found (now : Nat) (c : Context) (w : World) (url : String)
    (h : c.Param "id" ≠ "") (hg : Store.get w.store now (c.Param "id") = some url) :
    redirectToURL now Link.up c w
      = (cRedirect StatusFound url, { w with ops := w.ops ++ [Cmd.get (c.Param "id")] }) := by
  simp [redirectToURL, h, redisGet, hg]

theorem redirectToURL_missing (now : Nat) (c : Context) (w : World)
    (h : c.Param "id" ≠ "") (hg : Store.get w.store now (c.Param "id") = none) :
    redirectToURL now Link.up c w
      = (cString StatusNotFound "url not found",
          { w with ops := w.ops ++ [Cmd.get (c.Param "id")] }) := by
  simp [redirectToURL, h, redisGet, hg]

theorem redirectToURL_down (now : Nat) (link : Link) (c : Context) (w : World)
    (h : c.Param "id" ≠ "") (hl : link ≠ Link.up) :
    (redirectToURL now link c w).1
        = cString StatusInternalServerError "failed to retrieve url"
      ∧ (redirectToURL now link c w).2.ops
        = w.ops ++ List.replicate (link.resent + 1) (Cmd.get (c.Param "id")) := by
  cases link with
  | up => exact absurd rfl hl
  | dropRequest err n => simp [redirectToURL, h, redisGet, logErr, Link.resent]
  | dropReply err n => simp [redirectToURL, h, redisGet, logErr, Link.resent]

/-- When the `GET` fails with an error other than `redis.Nil`, the world after
`redirectToURL` is the world after that one client call plus one log line. -/
theorem redirectToURL_failed (now : Nat) (link : Link) (c : Context) (w : World)
    (e : RedisError) (h : c.Param "id" ≠ "")
    (he : (redisGet w now link (c.Param "id")).2 = Except.error e)
    (hne : e ≠ RedisError.Nil) :
    (redirectToURL now link c w).2
      = logErr (redisGet w now link (c.Param "id")).1 e "failed to get shortened url" := by
  cases link with
  | up =>
    cases hg : Store.get w.store now (c.Param "id") with
    | none =>
      simp [redisGet, hg] at he
      exact absurd he.symm hne
    | some v => simp [redisGet, hg] at he
  | dropRequest err n =>
    simp only [redisGet, Except.error.injEq] at he
    subst he
    simp [redirectToURL, h, redisGet]
  | dropReply err n =>
    simp only [redisGet, Except.error.injEq] at he
    subst he
    simp [redirectToURL, h, redisGet]

theorem redirectToURL_store (now : Nat) (link : Link) (c : Context) (w : World) :
    (redirectToURL now link c w).2.store = w.store := by
  by_cases h : c.Param "id" = ""
  · rw [redirectToURL_empty now link c w h]
  · cases link with
    | up =>
      cases hg : Store.get w.store now (c.Param "id") with
      | none => rw [redirectToURL_missing now c w h hg]
      | some url => rw [redirectToURL_found now c w url h hg]
    | dropRequest err n => simp [redirectToURL, h, redisGet, logErr]
    | dropReply err n => simp [redirectToURL, h, redisGet, logErr]

theorem firstValue_absent (l : List (String × String)) (name : String)
    (h : ∀ v, (name, v) ∉ l) : firstValue l name = "" := by
  induction l with
  | nil => rfl
  | cons p l ih =>
    obtain ⟨k, v⟩ := p
    have hk : k ≠ name := fun hk => h v (by rw [hk]; exact List.mem_cons_self _ _)
    have hl : ∀ v', (name, v') ∉ l := fun v' hm => h v' (List.mem_cons_of_mem _ hm)
    simp only [firstValue, if_neg hk]
    exact ih hl

theorem Getenv_absent (env : Env) (key : String) (h : ∀ v, (key, v) ∉ env) :
    Getenv env key = "" := by
  induction env with
  | nil => rfl
  | cons p env ih =>
    obtain ⟨k, v⟩ := p
    have hk : k ≠ key := fun hk => h v (by rw [hk]; exact List.mem_cons_self _ _)
    have hl : ∀ v', (key, v') ∉ env := fun v' hm => h v' (List.mem_cons_of_mem _ hm)
    simp only [Getenv, if_neg hk]
    exact ih hl

theorem shortenURL_body_dev (env : Env) (rnd now : Nat) (c : Context) (w : World)
    (h : c.FormValue "url" ≠ "") (hd : Getenv env "DEV_FLAG" = "1") :
    (shortenURL env rnd now Link.up c w).1.body
      = "http://" ++ c.host ++ "/s/" ++ uuidString (uuidNew rnd) := by
  rw [shortenURL_up env rnd now c w h]
  simp only [cString, if_pos hd]

theorem shortenURL_body_prod (env : Env) (rnd now : Nat) (c : Context) (w : World)
    (h : c.FormValue "url" ≠ "") (hd : Getenv env "DEV_FLAG" ≠ "1") :
    (shortenURL env rnd now Link.up c w).1.body
      = "https://" ++ c.host ++ "/s/" ++ uuidString (uuidNew rnd) := by
  rw [shortenURL_up env rnd now c w h]
  simp only [cString, if_neg hd]

theorem http_starts (rest : String) :
    "http://".data <+: ("http://" ++ rest).data
      ∧ ¬ "https://".data <+: ("http://" ++ rest).data := by
  have h1 : "http://".data = ['h', 't', 't', 'p', ':', '/', '/'] := rfl
  have h2 : "https://".data = ['h', 't', 't', 'p', 's', ':', '/', '/'] := rfl
  rw [String.data_append, h1, h2]
  constructor
  · exact ⟨_, rfl⟩
  · simp

theorem https_starts (rest : String) :
    "https://".data <+: ("https://" ++ rest).data
      ∧ ¬ "http://".data <+: ("https://" ++ rest).data := by
  have h1 : "http://".data = ['h', 't', 't', 'p', ':', '/', '/'] := rfl
  have h2 : "https://".data = ['h', 't', 't', 'p', 's', ':', '/', '/'] := rfl
  rw [String.data_append, h1, h2]
  constructor
  · exact ⟨_, rfl⟩
  · simp

/-! ## Lemmas on sequences of requests -/

theorem run_cons (w : World) (r : Request) (rs : List Request) :
    run w (r :: rs) = run (serve w r).2 rs := rfl

theorem responses_cons (w : World) (r : Request) (rs : List Request) :
    responses w (r :: rs) = (serve w r).1 :: responses (serve w r).2 rs := rfl

theorem freshCodes_cons (w : World) (r : Request) (rs : List Request) :
    freshCodes w (r :: rs) = (r.fresh w && freshCodes (serve w r).2 rs) := rfl

/-- A request either leaves the store as it is, or it is a `POST /shorten` with
a non-empty url and the store receives exactly its `SET`. -/
theorem serve_store (w : World) (r : Request) :
    (serve w r).2.store = w.store
      ∨ ∃ env rnd now link c, r = Request.shorten env rnd now link c
          ∧ c.FormValue "url" ≠ ""
          ∧ (serve w r).2.store
              = Store.set w.store now (uuidString (uuidNew rnd)) (c.FormValue "url")
                  (24 * Hour) := by
  cases r with
  | redirect now link c => exact Or.inl (redirectToURL_store now link c w)
  | shorten env rnd now link c =>
    by_cases h : c.FormValue "url" = ""
    · left
      show (shortenURL env rnd now link c w).2.store = w.store
      rw [shortenURL_empty env rnd now link c w h]
    · cases link with
      | up =>
        right
        refine ⟨env, rnd, now, Link.up, c, rfl, h, ?_⟩
        show (shortenURL env rnd now Link.up c w).2.store = _
        rw [shortenURL_up env rnd now c w h]
      | dropRequest err n =>
        left
        simp [serve, shortenURL, h, redisSet, logErr]
      | dropReply err n =>
        right
        refine ⟨env, rnd, now, Link.dropReply err n, c, rfl, h, ?_⟩
        simp [serve, shortenURL, h, redisSet, logErr, Store.setTimes_succ]

theorem serve_nodup (w : World) (r : Request) (h : (Store.keys w.store).Nodup) :
    (Store.keys (serve w r).2.store).Nodup := by
  rcases serve_store w r with h0 | ⟨env, rnd, now, link, c, _, _, h0⟩
  · rw [h0]
    exact h
  · rw [h0]
    exact Store.nodup_keys_set _ _ _ _ _ h

theorem serve_lookup (w : World) (r : Request) (k : String) (e : Entry)
    (hk : Store.lookup w.store k = some e) (ht : r.time < e.expiresAt)
    (hf : r.fresh w = true) : Store.lookup (serve w r).2.store k = some e := by
  rcases serve_store w r with h0 | ⟨env, rnd, now, link, c, hr, hu, h0⟩
  · rw [h0]
    exact hk
  · subst hr
    have hget : Store.get w.store now (uuidString (uuidNew rnd)) = none := by
      simpa [Request.fresh, hu] using hf
    have hne : k ≠ uuidString (uuidNew rnd) := by
      intro hk0
      have ht' : now < e.expiresAt := ht
      rw [← hk0, Store.get_of_lookup now hk, if_pos ht'] at hget
      exact absurd hget (by simp)
    rw [h0, Store.lookup_set_ne _ _ _ _ hne]
    exact hk

theorem run_nodup (rs : List Request) (w : World) (h : (Store.keys w.store).Nodup) :
    (Store.keys (run w rs).store).Nodup := by
  induction rs generalizing w with
  | nil => exact h
  | cons r rs ih =>
    rw [run_cons]
    exact ih _ (serve_nodup w r h)

theorem run_lookup (rs : List Request) (w : World) (k : String) (e : Entry)
    (hk : Store.lookup w.store k = some e) (ht : ∀ r ∈ rs, r.time < e.expiresAt)
    (hf : freshCodes w rs = true) : Store.lookup (run w rs).store k = some e := by
  induction rs generalizing w with
  | nil => exact hk
  | cons r rs ih =>
    rw [freshCodes_cons, Bool.and_eq_true] at hf
    rw [run_cons]
    exact ih _ (serve_lookup w r k e hk (ht r (List.mem_cons_self _ _)) hf.1)
      (fun r' hr' => ht r' (List.mem_cons_of_mem _ hr')) hf.2

theorem freshCodes_take (rs : List Request) (w : World) (n : Nat)
    (hf : freshCodes w rs = true) : freshCodes w (rs.take n) = true := by
  induction rs generalizing w n with
  | nil => simpa using hf
  | cons r rs ih =>
    cases n with
    | zero => rfl
    | succ n =>
      rw [freshCodes_cons, Bool.and_eq_true] at hf
      rw [List.take_succ_cons, freshCodes_cons, Bool.and_eq_true]
      exact ⟨hf.1, ih _ n hf.2⟩

theorem redisSet_error_down (w : World) (now : Nat) (link : Link) (key value : String)
    (ttl : Nat) (e : RedisError) (h : (redisSet w now link key value ttl).2 = Except.error e) :
    link ≠ Link.up := by
  intro hl
  subst hl
  simp [redisSet] at h

theorem redisGet_error_down (w : World) (now : Nat) (link : Link) (key : String)
    (e : RedisError) (h : (redisGet w now link key).2 = Except.error e)
    (hne : e ≠ RedisError.Nil) : link ≠ Link.up := by
  intro hl
  subst hl
  cases hg : Store.get w.store now key with
  | none =>
    simp [redisGet, hg] at h
    exact hne h.symm
  | some v => simp [redisGet, hg] at h

theorem repeated_redirect (ts : List Nat) (c : Context) (w : World) (e : Entry)
    (h : c.Param "id" ≠ "") (hk : Store.lookup w.store (c.Param "id") = some e)
    (ht : ∀ t ∈ ts, t < e.expiresAt) :
    responses w (ts.map fun t => Request.redirect t Link.up c)
        = List.replicate ts.length (cRedirect StatusFound e.value)
      ∧ (run w (ts.map fun t => Request.redirect t Link.up c)).store = w.store := by
  induction ts generalizing w with
  | nil => exact ⟨rfl, rfl⟩
  | cons t ts ih =>
    have hg : Store.get w.store t (c.Param "id") = some e.value := by
      rw [Store.get_of_lookup t hk]
      exact if_pos (ht t (List.mem_cons_self _ _))
    have hs : serve w (Request.redirect t Link.up c)
        = (cRedirect StatusFound e.value,
            { w with ops := w.ops ++ [Cmd.get (c.Param "id")] }) :=
      redirectToURL_found t c w e.value h hg
    have ih' := ih { w with ops := w.ops ++ [Cmd.get (c.Param "id")] } hk
      (fun t' ht' => ht t' (List.mem_cons_of_mem _ ht'))
    rw [List.map_cons, responses_cons, run_cons, hs, List.length_cons, List.replicate_succ]
    exact ⟨by rw [ih'.1], ih'.2⟩

/-! ## The claims -/

/-- C1: for every non-empty form value `url`, request host and generated code,
when the store write succeeds `shortenURL` answers 200 with body exactly
scheme ++ "://" ++ host ++ "/s/" ++ code; the resulting store maps the key
code, as is, to exactly the submitted url with a deadline of exactly 24 hours
(86400 seconds) after the write, so that the url is served before the deadline
and not from it on; every other key of the store is unchanged; and exactly one
`SET` was sent. -/
theorem shortenURL_success (env : Env) (rnd now : Nat) (c : Context) (w : World)
    (h : c.FormValue "url" ≠ "") :
    let code := uuidString (uuidNew rnd)
    let url := c.FormValue "url"
    let r := shortenURL env rnd now Link.up c w
    r.1.status = 200
      ∧ r.1.body
          = (if Getenv env "DEV_FLAG" = "1" then "http" else "https")
              ++ "://" ++ c.host ++ "/s/" ++ code
      ∧ Store.lookup r.2.store code
          = some { value := url, expiresAt := now + 86400 * Second }
      ∧ (∀ t, Store.get r.2.store t code
          = if t < now + 86400 * Second then some url else none)
      ∧ (∀ k, k ≠ code → Store.lookup r.2.store k = Store.lookup w.store k)
      ∧ r.2.ops = w.ops ++ [Cmd.set code url (86400 * Second)] := by
  intro code url r
  have hr : r = _ := shortenURL_up env rnd now c w h
  have hH : 24 * Hour = 86400 * Second := by decide
  rw [hH] at hr
  have hl : Store.lookup r.2.store code
      = some { value := url, expiresAt := now + 86400 * Second } := by
    rw [hr]
    exact Store.lookup_set_self _ _ _ _ _
  refine ⟨by rw [hr]; rfl, ?_, hl, ?_, ?_, by rw [hr]⟩
  · rw [hr]
    by_cases hd : Getenv env "DEV_FLAG" = "1"
    · simp only [cString, if_pos hd]
      rfl
    · simp only [cString, if_neg hd]
      rfl
  · intro t
    exact Store.get_of_lookup t hl
  · intro k hk
    rw [hr]
    exact Store.lookup_set_ne _ _ _ _ hk

/-- Witness of C1: shortening `https://example.com` on an empty store. -/
theorem shortenURL_success_witness :
    samplePost.FormValue "url" ≠ ""
      ∧ (shortenURL [] 0 5 Link.up samplePost emptyWorld).1.status = 200
      ∧ (shortenURL [] 0 5 Link.up samplePost emptyWorld).1.body
          = "https://sho.rt/s/00000000-0000-4000-8000-000000000000"
      ∧ Store.lookup (shortenURL [] 0 5 Link.up samplePost emptyWorld).2.store
          "00000000-0000-4000-8000-000000000000"
          = some { value := "https://example.com", expiresAt := 86400000000005 } :=
  have h := shortenURL_success [] 0 5 samplePost emptyWorld (by decide)
  ⟨by decide, h.1, h.2.1, h.2.2.1⟩

/-- C2: round trip.  For every non-empty url, if `shortenURL` succeeds (answers
200) and issues code c, then `redirectToURL` called with path parameter c on
the resulting world, at any instant before the deadline and with the store
reachable, answers 302 with `Location` exactly the submitted url. -/
theorem shorten_then_redirect (env : Env) (rnd now : Nat) (link : Link) (c : Context)
    (w : World) (t : Nat) (cx : Context)
    (hurl : c.FormValue "url" ≠ "")
    (hok : (shortenURL env rnd now link c w).1.status = 200)
    (hid : cx.Param "id" = uuidString (uuidNew rnd))
    (ht : t < now + 24 * Hour) :
    (redirectToURL t Link.up cx (shortenURL env rnd now link c w).2).1
      = { status := 302, body := "", location := some (c.FormValue "url") } := by
  have hup : link = Link.up := by
    by_contra hl
    rw [(shortenURL_down env rnd now link c w hurl hl).1] at hok
    exact absurd hok (by decide)
  subst hup
  have hne : cx.Param "id" ≠ "" := by
    rw [hid]
    exact uuidString_ne_empty rnd
  have hg : Store.get (shortenURL env rnd now Link.up c w).2.store t (cx.Param "id")
      = some (c.FormValue "url") := by
    rw [hid, shortenURL_up env rnd now c w hurl]
    rw [Store.get_of_lookup t (Store.lookup_set_self _ _ _ _ _)]
    exact if_pos ht
  rw [redirectToURL_found t cx _ _ hne hg]
  rfl

/-- Witness of C2: `https://example.com` is shortened at instant 5 and resolved
one hour later. -/
theorem shorten_then_redirect_witness :
    samplePost.FormValue "url" ≠ ""
      ∧ (shortenURL [] 0 5 Link.up samplePost emptyWorld).1.status = 200
      ∧ (sampleGet "00000000-0000-4000-8000-000000000000").Param "id"
          = uuidString (uuidNew 0)
      ∧ 5 + Hour < 5 + 24 * Hour
      ∧ (redirectToURL (5 + Hour) Link.up (sampleGet "00000000-0000-4000-8000-000000000000")
            (shortenURL [] 0 5 Link.up samplePost emptyWorld).2).1
          = { status := 302, body := "", location := some "https://example.com" } :=
  ⟨by decide, by decide, by decide, by decide,
    shorten_then_redirect [] 0 5 Link.up samplePost emptyWorld (5 + Hour)
      (sampleGet "00000000-0000-4000-8000-000000000000")
      (by decide) (by decide) (by decide) (by decide)⟩

/-- C3: when the form field `url` is empty or absent, `shortenURL` answers 400
with body exactly "url cannot be empty" and leaves the world as it was: the
store is unchanged and no command was sent to it. -/
theorem shortenURL_empty_url (env : Env) (rnd now : Nat) (link : Link) (c : Context)
    (w : World) (h : c.FormValue "url" = "" ∨ ∀ v, ("url", v) ∉ c.form) :
    (shortenURL env rnd now link c w).1
        = { status := 400, body := "url cannot be empty", location := none }
      ∧ (shortenURL env rnd now link c w).2.store = w.store
      ∧ (shortenURL env rnd now link c w).2.ops = w.ops
      ∧ (shortenURL env rnd now link c w).2 = w := by
  have h0 : c.FormValue "url" = "" := by
    rcases h with h | h
    · exact h
    · exact firstValue_absent c.form "url" h
  rw [shortenURL_empty env rnd now link c w h0]
  exact ⟨rfl, rfl, rfl, rfl⟩

/-- Witness of C3: a form without a `url` field, on a store that holds one
mapping. -/
theorem shortenURL_empty_url_witness :
    (sampleEmptyPost.FormValue "url" = "" ∨ ∀ v, ("url", v) ∉ sampleEmptyPost.form)
      ∧ (shortenURL [] 7 5 Link.up sampleEmptyPost
            { store := [("k", { value := "v", expiresAt := 9 })], ops := [], logs := [] }).1
          = { status := 400, body := "url cannot be empty", location := none }
      ∧ (shortenURL [] 7 5 Link.up sampleEmptyPost
            { store := [("k", { value := "v", expiresAt := 9 })], ops := [], logs := [] }).2.store
          = [("k", { value := "v", expiresAt := 9 })]
      ∧ (shortenURL [] 7 5 Link.up sampleEmptyPost
            { store := [("k", { value := "v", expiresAt := 9 })], ops := [], logs := [] }).2.ops
          = [] :=
  have h := shortenURL_empty_url [] 7 5 Link.up sampleEmptyPost
    { store := [("k", { value := "v", expiresAt := 9 })], ops := [], logs := [] }
    (Or.inl (by decide))
  ⟨Or.inl (by decide), h.1, h.2.1, h.2.2.1⟩

/-- C8: when the path parameter is empty, `redirectToURL` answers 400 with body
exactly "short url cannot be empty" and sends nothing to the store: the list
of commands sent, and the world as a whole, are as before. -/
theorem redirectToURL_empty_code (now : Nat) (link : Link) (c : Context) (w : World)
    (h : c.Param "id" = "") :
    (redirectToURL now link c w).1
        = { status := 400, body := "short url cannot be empty", location := none }
      ∧ (redirectToURL now link c w).2.ops = w.ops
      ∧ (redirectToURL now link c w).2 = w := by
  rw [redirectToURL_empty now link c w h]
  exact ⟨rfl, rfl, rfl⟩

/-- Witness of C8: a request whose path parameter is the empty string. -/
theorem redirectToURL_empty_code_witness :
    (sampleGet "").Param "id" = ""
      ∧ (redirectToURL 5 Link.up (sampleGet "") emptyWorld).1
          = { status := 400, body := "short url cannot be empty", location := none }
      ∧ (redirectToURL 5 Link.up (sampleGet "") emptyWorld).2.ops = emptyWorld.ops
      ∧ (redirectToURL 5 Link.up (sampleGet "") emptyWorld).2 = emptyWorld :=
  ⟨by decide, redirectToURL_empty_code 5 Link.up (sampleGet "") emptyWorld (by decide)⟩

/-- C4, as stated, fails: the code `abc` is absent from the (empty) store, yet
when the store cannot be reached the answer is 500, not 404. -/
theorem absent_code_unreachable_store :
    (sampleGet "abc").Param "id" ≠ ""
      ∧ Store.lookup emptyWorld.store "abc" = none
      ∧ (redirectToURL 5 (Link.dropRequest "connection refused" 3) (sampleGet "abc")
            emptyWorld).1
          = { status := 500, body := "failed to retrieve url", location := none }
      ∧ (redirectToURL 5 (Link.dropRequest "connection refused" 3) (sampleGet "abc")
            emptyWorld).1.status ≠ 404 := by
  decide

/-- C4, amended: for every non-empty code whose key is absent from the store
(never recorded, or recorded with a deadline that has passed), when the store
is reachable `redirectToURL` answers 404 with body exactly "url not found" and
sets no `Location`. -/
theorem redirectToURL_absent (now : Nat) (c : Context) (w : World)
    (h : c.Param "id" ≠ "")
    (habs : Store.lookup w.store (c.Param "id") = none
      ∨ ∃ e, Store.lookup w.store (c.Param "id") = some e ∧ e.expiresAt ≤ now) :
    (redirectToURL now Link.up c w).1
      = { status := 404, body := "url not found", location := none } := by
  have hg : Store.get w.store now (c.Param "id") = none := by
    rcases habs with h0 | ⟨e, h0, h1⟩
    · exact Store.get_of_lookup_none now h0
    · rw [Store.get_of_lookup now h0]
      exact if_neg (Nat.not_lt.mpr h1)
  rw [redirectToURL_missing now c w h hg]
  rfl

/-- Witness of the amended C4: a code issued at instant 5 is asked for exactly
24 hours later, when its deadline has just passed. -/
theorem redirectToURL_absent_witness :
    (sampleGet "00000000-0000-4000-8000-000000000000").Param "id" ≠ ""
      ∧ (redirectToURL (5 + 24 * Hour) Link.up
            (sampleGet "00000000-0000-4000-8000-000000000000")
            (shortenURL [] 0 5 Link.up samplePost emptyWorld).2).1
          = { status := 404, body := "url not found", location := none } :=
  ⟨by decide,
    redirectToURL_absent (5 + 24 * Hour)
      (sampleGet "00000000-0000-4000-8000-000000000000")
      (shortenURL [] 0 5 Link.up samplePost emptyWorld).2 (by decide)
      (Or.inr ⟨{ value := "https://example.com", expiresAt := 5 + 24 * Hour },
        by decide, Nat.le_refl _⟩)⟩

/-- C5: the link built by `shortenURL` starts with "http://" if and only if
`DEV_FLAG` is exactly "1"; for every other value, the empty string and an unset
variable included, it starts with "https://".  What follows the scheme (the
separator, the host, "/s/" and the code) is the same in both cases. -/
theorem shortenURL_scheme (env : Env) (rnd now : Nat) (c : Context) (w : World)
    (h : c.FormValue "url" ≠ "") :
    let body := (shortenURL env rnd now Link.up c w).1.body
    let code := uuidString (uuidNew rnd)
    (Getenv env "DEV_FLAG" = "1" → body = "http" ++ "://" ++ c.host ++ "/s/" ++ code)
      ∧ (Getenv env "DEV_FLAG" ≠ "1" → body = "https" ++ "://" ++ c.host ++ "/s/" ++ code)
      ∧ ("http://".data <+: body.data ↔ Getenv env "DEV_FLAG" = "1")
      ∧ ("https://".data <+: body.data ↔ Getenv env "DEV_FLAG" ≠ "1")
      ∧ (Getenv env "DEV_FLAG" = "" → "https://".data <+: body.data)
      ∧ ((∀ v, ("DEV_FLAG", v) ∉ env) → "https://".data <+: body.data) := by
  intro body code
  have hdev := shortenURL_body_dev env rnd now c w h
  have hprod := shortenURL_body_prod env rnd now c w h
  have hs : Getenv env "DEV_FLAG" ≠ "1" → "https://".data <+: body.data := by
    intro hd
    have hb : body = "https://" ++ (c.host ++ "/s/" ++ code) := by
      rw [← String.append_assoc, ← String.append_assoc]
      exact hprod hd
    rw [hb]
    exact (https_starts _).1
  have hne : ("" : String) ≠ "1" := by decide
  refine ⟨fun hd => hdev hd, fun hd => hprod hd, ?_, ?_, ?_, ?_⟩
  · constructor
    · intro hp
      by_contra hd
      have hb : body = "https://" ++ (c.host ++ "/s/" ++ code) := by
        rw [← String.append_assoc, ← String.append_assoc]
        exact hprod hd
      rw [hb] at hp
      exact (https_starts _).2 hp
    · intro hd
      have hb : body = "http://" ++ (c.host ++ "/s/" ++ code) := by
        rw [← String.append_assoc, ← String.append_assoc]
        exact hdev hd
      rw [hb]
      exact (http_starts _).1
  · constructor
    · intro hp hd
      have hb : body = "http://" ++ (c.host ++ "/s/" ++ code) := by
        rw [← String.append_assoc, ← String.append_assoc]
        exact hdev hd
      rw [hb] at hp
      exact (http_starts _).2 hp
    · exact hs
  · intro he
    exact hs (by rw [he]; exact hne)
  · intro hu
    exact hs (by rw [Getenv_absent env "DEV_FLAG" hu]; exact hne)

/-- Witness of C5: the same request served with `DEV_FLAG=1`. -/
theorem shortenURL_scheme_witness :
    samplePost.FormValue "url" ≠ ""
      ∧ (Getenv [("DEV_FLAG", "1")] "DEV_FLAG" = "1" →
          (shortenURL [("DEV_FLAG", "1")] 0 5 Link.up samplePost emptyWorld).1.body
            = "http" ++ "://" ++ samplePost.host ++ "/s/" ++ uuidString (uuidNew 0))
      ∧ (shortenURL [("DEV_FLAG", "1")] 0 5 Link.up samplePost emptyWorld).1.body
          = "http://sho.rt/s/00000000-0000-4000-8000-000000000000" :=
  ⟨by decide, (shortenURL_scheme [("DEV_FLAG", "1")] 0 5 samplePost emptyWorld (by decide)).1,
    by decide⟩

/-- C6, as stated, fails twice over.  On a store that already serves the code
drawn, `shortenURL` answers 200 with that very code: it is not a fresh one.
And when the write does not reach the store the answer is 500, not 200. -/
theorem shortenURL_code_in_use :
    samplePost.FormValue "url" ≠ ""
      ∧ (shortenURL [] 0 5 Link.up samplePost collidingWorld).1
          = { status := 200,
              body := "https://sho.rt/s/00000000-0000-4000-8000-000000000000",
              location := none }
      ∧ Store.get collidingWorld.store 5 "00000000-0000-4000-8000-000000000000"
          = some "https://old.example"
      ∧ "00000000-0000-4000-8000-000000000000" ∈ Store.keys collidingWorld.store
      ∧ (shortenURL [] 0 5 (Link.dropRequest "connection refused" 3) samplePost
            emptyWorld).1.status = 500 := by
  decide

/-- C6, amended: for every non-empty url, when the store write succeeds
`shortenURL` answers 200 with a body of the form scheme://host/s/code, the
scheme being http or https and the code the 36-character rendering (hex
digits and dashes) of the UUID drawn for the request.  The code is drawn
without looking at the store: the response is the same whatever the store
holds. -/
theorem shortenURL_link (env : Env) (rnd now : Nat) (c : Context) (w : World)
    (h : c.FormValue "url" ≠ "") :
    (shortenURL env rnd now Link.up c w).1.status = 200
      ∧ (∃ scheme, (scheme = "http" ∨ scheme = "https")
          ∧ (shortenURL env rnd now Link.up c w).1.body
              = scheme ++ "://" ++ c.host ++ "/s/" ++ uuidString (uuidNew rnd))
      ∧ (uuidString (uuidNew rnd)).length = 36
      ∧ (∀ ch ∈ (uuidString (uuidNew rnd)).data, ch ∈ "0123456789abcdef-".data)
      ∧ ∀ w', (shortenURL env rnd now Link.up c w').1
          = (shortenURL env rnd now Link.up c w).1 := by
  refine ⟨?_, ?_, uuidString_length rnd, fun ch hch => uuidString_chars _ ch hch, ?_⟩
  · rw [shortenURL_up env rnd now c w h]
    rfl
  · by_cases hd : Getenv env "DEV_FLAG" = "1"
    · exact ⟨"http", Or.inl rfl, shortenURL_body_dev env rnd now c w h hd⟩
    · exact ⟨"https", Or.inr rfl, shortenURL_body_prod env rnd now c w h hd⟩
  · intro w'
    rw [shortenURL_up env rnd now c w h, shortenURL_up env rnd now c w' h]

/-- Witness of the amended C6: shortening `https://example.com`. -/
theorem shortenURL_link_witness :
    samplePost.FormValue "url" ≠ ""
      ∧ (shortenURL [] 0 5 Link.up samplePost emptyWorld).1.status = 200
      ∧ (uuidString (uuidNew 0)).length = 36 :=
  have h := shortenURL_link [] 0 5 samplePost emptyWorld (by decide)
  ⟨by decide, h.1, h.2.2.1⟩

/-- C7, as stated, fails: the store serves a mapping under a code until instant
100; at instant 5 a `POST /shorten` draws the same code, and the value served
under that key changes. -/
theorem shortenURL_overwrites :
    Store.get collidingWorld.store 5 "00000000-0000-4000-8000-000000000000"
        = some "https://old.example"
      ∧ Store.get (serve collidingWorld (Request.shorten [] 0 5 Link.up samplePost)).2.store 5
          "00000000-0000-4000-8000-000000000000"
        = some "https://example.com" := by
  decide

/-- C7, amended: over every sequence of `shortenURL` and `redirectToURL`
requests served from a store with pairwise distinct keys, the keys stay
pairwise distinct at every point of the sequence (a code maps to at most one
target); `redirectToURL` never changes the store; and an entry recorded under
a key stays exactly as it is up to every point of the sequence, provided every
request is served before the entry's deadline and no `POST /shorten` draws a
code that the store serves at that instant. -/
theorem store_invariant (w : World) (rs : List Request)
    (hn : (Store.keys w.store).Nodup) :
    (∀ n, (Store.keys (run w (rs.take n)).store).Nodup)
      ∧ (∀ now link c w', (serve w' (Request.redirect now link c)).2.store = w'.store)
      ∧ (∀ k e, Store.lookup w.store k = some e →
          (∀ r ∈ rs, r.time < e.expiresAt) →
          freshCodes w rs = true →
          ∀ n, Store.lookup (run w (rs.take n)).store k = some e
            ∧ ∀ t, t < e.expiresAt →
                Store.get (run w (rs.take n)).store t k = some e.value) := by
  refine ⟨fun n => run_nodup _ w hn, fun now link c w' => redirectToURL_store now link c w', ?_⟩
  intro k e hk ht hf n
  have hl : Store.lookup (run w (rs.take n)).store k = some e :=
    run_lookup (rs.take n) w k e hk (fun r hr => ht r (List.mem_of_mem_take hr))
      (freshCodes_take rs w n hf)
  refine ⟨hl, fun t htl => ?_⟩
  rw [Store.get_of_lookup t hl]
  exact if_pos htl

/-- Witness of the amended C7: the mapping of `collidingWorld` survives
`sampleRequests`. -/
theorem store_invariant_witness :
    (Store.keys collidingWorld.store).Nodup
      ∧ freshCodes collidingWorld sampleRequests = true
      ∧ (Store.keys (run collidingWorld (sampleRequests.take 2)).store).Nodup
      ∧ Store.lookup (run collidingWorld (sampleRequests.take 2)).store
          "00000000-0000-4000-8000-000000000000"
          = some { value := "https://old.example", expiresAt := 100 } :=
  have h := store_invariant collidingWorld sampleRequests (by decide)
  ⟨by decide, by decide, h.1 2,
    (h.2.2 "00000000-0000-4000-8000-000000000000"
      { value := "https://old.example", expiresAt := 100 } (by decide) (by decide)
      (by decide) 2).1⟩

/-- C9, as stated, fails in its last part.  The client is built with its
default retry options, so when the store refuses the connection the one `SET`
of `shortenURL` is attempted four times, and when the replies are lost the
one `GET` of `redirectToURL` is attempted four times: not exactly one store
operation. -/
theorem failed_command_is_resent :
    samplePost.FormValue "url" ≠ ""
      ∧ (redisSet emptyWorld 5 (Link.dropRequest "connection refused" 3)
            (uuidString (uuidNew 0)) (samplePost.FormValue "url") (24 * Hour)).2
          = Except.error (RedisError.other "connection refused")
      ∧ (shortenURL [] 0 5 (Link.dropRequest "connection refused" 3) samplePost
            emptyWorld).2.ops
          = List.replicate 4
              (Cmd.set "00000000-0000-4000-8000-000000000000" "https://example.com"
                (24 * Hour))
      ∧ (shortenURL [] 0 5 (Link.dropRequest "connection refused" 3) samplePost
            emptyWorld).2.ops.length ≠ 1
      ∧ (sampleGet "abc").Param "id" ≠ ""
      ∧ (redisGet emptyWorld 5 (Link.dropReply "i/o timeout" 3)
            ((sampleGet "abc").Param "id")).2
          = Except.error (RedisError.other "i/o timeout")
      ∧ (redirectToURL 5 (Link.dropReply "i/o timeout" 3) (sampleGet "abc") emptyWorld).2.ops
          = List.replicate 4 (Cmd.get "abc")
      ∧ (redirectToURL 5 (Link.dropReply "i/o timeout" 3) (sampleGet "abc")
            emptyWorld).2.ops.length ≠ 1 :=
  ⟨by decide, rfl, by decide, by decide, by decide, rfl, by decide, by decide⟩

/-- C9, amended: a failure to talk to the store is answered 500, never as a
success.  For every non-empty url, if the `SET` returns an error then
`shortenURL` answers 500 with body exactly "failed to set shortened url"; for
every non-empty code, if the `GET` returns an error other than `redis.Nil`
then `redirectToURL` answers 500 with body exactly "failed to retrieve url"
and no `Location`.  In both cases the handler makes exactly one client call
and does not repeat it: the world afterwards is the world after that one call
plus one log line.  The attempts made are those of the client library, which
sends the one command again `resent` times: one plus `resent` copies of the
same command, and nothing else. -/
theorem store_failure_is_500 (env : Env) (rnd now : Nat) (link : Link) (c : Context)
    (w : World) :
    (∀ e, c.FormValue "url" ≠ "" →
        (redisSet w now link (uuidString (uuidNew rnd)) (c.FormValue "url") (24 * Hour)).2
          = Except.error e →
        (shortenURL env rnd now link c w).1
            = { status := 500, body := "failed to set shortened url", location := none }
          ∧ (shortenURL env rnd now link c w).1.status ≠ 200
          ∧ (shortenURL env rnd now link c w).2
              = logErr (redisSet w now link (uuidString (uuidNew rnd)) (c.FormValue "url")
                  (24 * Hour)).1 e "failed to set shortened url"
          ∧ (shortenURL env rnd now link c w).2.ops
              = w.ops ++ List.replicate (link.resent + 1)
                  (Cmd.set (uuidString (uuidNew rnd)) (c.FormValue "url") (24 * Hour)))
      ∧ (∀ e, c.Param "id" ≠ "" →
          (redisGet w now link (c.Param "id")).2 = Except.error e →
          e ≠ RedisError.Nil →
          (redirectToURL now link c w).1
              = { status := 500, body := "failed to retrieve url", location := none }
            ∧ (redirectToURL now link c w).1.status ≠ 404
            ∧ (redirectToURL now link c w).1.status ≠ 302
            ∧ (redirectToURL now link c w).2
                = logErr (redisGet w now link (c.Param "id")).1 e
                    "failed to get shortened url"
            ∧ (redirectToURL now link c w).2.ops
                = w.ops ++ List.replicate (link.resent + 1) (Cmd.get (c.Param "id"))) := by
  constructor
  · intro e hu he
    have hd := shortenURL_down env rnd now link c w hu (redisSet_error_down _ _ _ _ _ _ e he)
    refine ⟨hd.1, ?_, shortenURL_failed env rnd now link c w e hu he, hd.2⟩
    rw [hd.1]
    decide
  · intro e hp he hne
    have hd := redirectToURL_down now link c w hp (redisGet_error_down _ _ _ _ e he hne)
    refine ⟨hd.1, ?_, ?_, redirectToURL_failed now link c w e hp he hne, hd.2⟩
    · rw [hd.1]
      decide
    · rw [hd.1]
      decide

/-- Witness of the amended C9: the store refuses the connection during a
`POST /shorten` and the client gives up after three further attempts; the
reply is lost during a `GET /s/abc` that the client does not repeat. -/
theorem store_failure_is_500_witness :
    (samplePost.FormValue "url" ≠ ""
        ∧ (redisSet emptyWorld 5 (Link.dropRequest "connection refused" 3)
              (uuidString (uuidNew 0)) (samplePost.FormValue "url") (24 * Hour)).2
            = Except.error (RedisError.other "connection refused")
        ∧ (shortenURL [] 0 5 (Link.dropRequest "connection refused" 3) samplePost
              emptyWorld).1
            = { status := 500, body := "failed to set shortened url", location := none })
      ∧ ((sampleGet "abc").Param "id" ≠ ""
        ∧ (redisGet emptyWorld 5 (Link.dropReply "i/o timeout" 0)
              ((sampleGet "abc").Param "id")).2
            = Except.error (RedisError.other "i/o timeout")
        ∧ (redirectToURL 5 (Link.dropReply "i/o timeout" 0) (sampleGet "abc") emptyWorld).1
            = { status := 500, body := "failed to retrieve url", location := none }
        ∧ (redirectToURL 5 (Link.dropReply "i/o timeout" 0) (sampleGet "abc")
              emptyWorld).2.ops
            = emptyWorld.ops ++ List.replicate (0 + 1) (Cmd.get "abc")) :=
  have hset := (store_failure_is_500 [] 0 5 (Link.dropRequest "connection refused" 3)
    samplePost emptyWorld).1 (RedisError.other "connection refused") (by decide) rfl
  have hget := (store_failure_is_500 [] 0 5 (Link.dropReply "i/o timeout" 0) (sampleGet "abc")
    emptyWorld).2 (RedisError.other "i/o timeout") (by decide) rfl (by decide)
  ⟨⟨by decide, rfl, hset.1⟩, ⟨by decide, rfl, hget.1, hget.2.2.2.2⟩⟩

/-- C10: `redirectToURL` never modifies the store, so for every code recorded
in the store, `GET /s/code` repeated any number of times at instants before
the deadline, with the store reachable, is answered each time by the same 302
with the same `Location`, and the store at the end is the store at the
start. -/
theorem redirect_idempotent (w : World) (c : Context) (e : Entry) (ts : List Nat)
    (h : c.Param "id" ≠ "") (hk : Store.lookup w.store (c.Param "id") = some e)
    (ht : ∀ t ∈ ts, t < e.expiresAt) :
    (∀ now link cx w', (redirectToURL now link cx w').2.store = w'.store)
      ∧ responses w (ts.map fun t => Request.redirect t Link.up c)
          = List.replicate ts.length { status := 302, body := "", location := some e.value }
      ∧ (run w (ts.map fun t => Request.redirect t Link.up c)).store = w.store :=
  ⟨fun now link cx w' => redirectToURL_store now link cx w',
    repeated_redirect ts c w e h hk ht⟩

/-- Witness of C10: the mapping of `collidingWorld` resolved three times. -/
theorem redirect_idempotent_witness :
    (sampleGet "00000000-0000-4000-8000-000000000000").Param "id" ≠ ""
      ∧ responses collidingWorld
          ([6, 50, 99].map fun t =>
            Request.redirect t Link.up (sampleGet "00000000-0000-4000-8000-000000000000"))
          = List.replicate 3
              { status := 302, body := "", location := some "https://old.example" }
      ∧ (run collidingWorld
          ([6, 50, 99].map fun t =>
            Request.redirect t Link.up
              (sampleGet "00000000-0000-4000-8000-000000000000"))).store
          = collidingWorld.store :=
  ⟨by decide,
    (redirect_idempotent collidingWorld (sampleGet "00000000-0000-4000-8000-000000000000")
      { value := "https://old.example", expiresAt := 100 } [6, 50, 99] (by decide) (by decide)
      (by decide)).2⟩

end UrlShortener
